import Mathlib

/-!
ChickEye backend: verification of the per-connection video pipeline.

Shallow embedding of `src/backend/main.py` (the `ws_video` websocket handler
and its helpers `_call_model`, `_draw`, `_encode_frame`), over which the
spec's claims about the stability filter, the renderer, the transport
encoder and the session loop are stated and proved.

Modelling conventions:
* Python floats are modelled as `ℚ`.  Every float comparison the claims
  depend on (`sum(history)/len(history) >= 0.8` with `sum ≤ len ≤ 10`,
  sorting by the detection's own `confidence` value) is exact in this range:
  the rationals reachable as `s/len`, `len ≤ 10`, are either equal to `0.8`
  (where the IEEE quotient and the IEEE literal `0.8` coincide) or at
  distance ≥ 1/50 from it, far beyond double rounding error, and sorting
  only compares stored values, never recomputed ones.
* Python `int(x)` on a nonnegative quotient of machine ints truncates, which
  for the sizes involved equals `Nat` floor division.
* `list.sort(key=..., reverse=True)` is a stable sort; a stable sort is
  uniquely determined by the key preorder, so `List.insertionSort` with the
  relation "greater-or-equal confidence" is its exact semantics.
* Calls into external libraries (cv2 rasterisation, JPEG compression, httpx)
  are modelled by explicit pure functions; where a library's exact pixel
  output is unspecifiable (glyph shapes, interpolation, JPEG bytes) the
  model keeps the data flow and dimensions faithful and abstracts the
  pixel values, which no claim depends on.
-/

namespace ChickEye

/-- A BGR pixel (blue, green, red byte values). -/
abbrev Pixel := Nat × Nat × Nat

/-- A frame is a pixel grid: a list of rows (`numpy` image, `shape = (h, w)`). -/
abbrev Frame := List (List Pixel)

/-- One raw detection, as returned by the Detection Provider
(`{class, confidence, bbox, mask?}`, see `main.py` `_call_model` /
the provider response schema). `conf` models the Python float confidence;
`bbox` the four (already integer-truncated) corner coordinates;
`mask` the optional 2-D float grid. -/
structure Det where
  cls : Nat
  conf : ℚ
  bbox : Int × Int × Int × Int := (0, 0, 0, 0)
  mask : Option (List (List ℚ)) := none
deriving DecidableEq

/-! ## Stability filter (`ws_video`, main.py:330ff and 352–363) -/

/-- Model of `history[cls].append(x)` on a `deque(maxlen=10)`: append on the right,
evicting from the left once the length would exceed 10.  The deque is
modelled as the list of its elements, oldest first. -/
def pushHist (h : List Nat) (x : Nat) : List Nat :=
  (h ++ [x]).drop ((h ++ [x]).length - 10)

/-- Model of `detected_classes = {d["class"] for d in detections}` (main.py:352).
A Python set is used only for membership tests, so the list of class
indices is an exact model. -/
def detectedClasses (dets : List Det) : List Nat :=
  dets.map (fun d => d.cls)

/-- The per-frame history update (main.py:353–354):
`for cls in range(num_classes): history[cls].append(1 if cls in detected_classes else 0)`.
The dict `history : {0..n-1 → deque}` is modelled as a length-`n` list,
index `cls` holding `history[cls]`. -/
def updateHistory (n : Nat) (dets : List Det) (hist : List (List Nat)) : List (List Nat) :=
  (List.range n).map fun cls =>
    pushHist (hist.getD cls []) (if (detectedClasses dets).contains cls then 1 else 0)

/-- The history part of the filter condition (main.py:359–360):
`len(history[c]) > 0 and sum(history[c]) / len(history[c]) >= 0.8`.
The float comparison is exact here (file header); for `l > 0`,
`s / l ≥ 4/5` over ℚ holds iff `4 * l ≤ 5 * s`, and the guard makes the two
readings agree at `l = 0` as well (Python short-circuits the division
away; over ℚ the division reading gives `0/0 = 0 < 4/5`, and either way
the conjunction is false).  The cross-multiplied form is used so the
condition evaluates by kernel reduction; `presenceOK_frac` and
`frac_presenceOK` below relate it to the literal rational-division
reading used in the claims. -/
def presenceOK (h : List Nat) : Bool :=
  decide (0 < h.length) && decide (4 * h.length ≤ 5 * h.sum)

/-- The sort relation of `stable.sort(key=lambda d: d["confidence"], reverse=True)`:
`a` may come before `b` iff `a`'s confidence is ≥ `b`'s. -/
def confGe (a b : Det) : Prop := b.conf ≤ a.conf

instance : DecidableRel confGe := fun a b => inferInstanceAs (Decidable (b.conf ≤ a.conf))

instance : IsTotal Det confGe := ⟨fun a b => le_total b.conf a.conf⟩

instance : IsTrans Det confGe := ⟨fun _ _ _ hab hbc => le_trans hbc hab⟩

/-- Steps (4)–(6) of the filter (main.py:356–363): keep a raw detection iff
its class is `< num_classes` and its (just-updated) history passes the
presence test; stable-sort by confidence descending; truncate to
`num_classes` entries. -/
def stabilize (n : Nat) (hist : List (List Nat)) (dets : List Det) : List Det :=
  ((dets.filter fun d => decide (d.cls < n) && presenceOK (hist.getD d.cls [])).insertionSort
      confGe).take n

/-- One frame through the filter: update every class's history with this
frame's raw detections, then compute the stabilized list against the
updated histories (main.py:352–363). -/
def frameStep (n : Nat) (hist : List (List Nat)) (dets : List Det) :
    List (List Nat) × List Det :=
  let hist' := updateHistory n dets hist
  (hist', stabilize n hist' dets)

/-- Model of `history = {i: deque(maxlen=10) for i in range(num_classes)}` (main.py:330). -/
def initHist (n : Nat) : List (List Nat) :=
  List.replicate n []

/-- Run the filter over a whole session's sequence of per-frame raw
detection lists, returning the final histories and the per-frame
stabilized outputs. -/
def runFilter (n : Nat) (hist : List (List Nat)) : List (List Det) → List (List Nat) × List (List Det)
  | [] => (hist, [])
  | dets :: rest =>
    let s := frameStep n hist dets
    let r := runFilter n s.1 rest
    (r.1, s.2 :: r.2)

/-- The presence flag the spec talks about: did frame `dets` contain class `c`? -/
def presenceFlag (c : Nat) (dets : List Det) : Nat :=
  if (detectedClasses dets).contains c then 1 else 0

/-- Last ≤10 elements of a list (the rolling window's contents). -/
def lastTen (l : List Nat) : List Nat :=
  l.drop (l.length - 10)

/-- The spec-side rolling history of class `c` over a frame sequence: the
presence flags of the last ≤10 frames, oldest first. -/
def specHistory (c : Nat) (frames : List (List Det)) : List Nat :=
  lastTen (frames.map (presenceFlag c))

/-- The spec-side presence fraction of class `c` after a frame sequence:
sum of the rolling history over its actual length. -/
def specFrac (c : Nat) (frames : List (List Det)) : ℚ :=
  ((specHistory c frames).sum : ℚ) / ((specHistory c frames).length : ℚ)

/-! ## Renderer (`_draw`, main.py:189–214)

`_draw` writes boxes, label boxes, label text and optional mask overlays
through the frame array it is handed.  cv2's exact rasterisation (line
thickness geometry, anti-aliasing, Hershey glyph shapes, `resize`
interpolation) and numpy's float blending are external-library behaviour;
they are modelled as explicit pixel writes with the same data flow (same
colour choices, same regions up to rasterisation detail, same per-detection
accumulation and the `frame = overlay` rebinding for masks).  No claim
depends on the exact pixel values. -/

/-- Write colour `c` at every (row, column) where `p` holds. -/
def fillRegion (fr : Frame) (p : Nat → Nat → Bool) (c : Pixel) : Frame :=
  fr.enum.map fun yr => yr.2.enum.map fun xp => if p yr.1 xp.1 then c else xp.2

/-- Model of `cv2.rectangle(frame, (x1,y1), (x2,y2), color, 2)`: paint the rectangle
outline (a band of thickness 2 around the border; exact cv2 band geometry
abstracted). -/
def drawRect (fr : Frame) (x1 y1 x2 y2 : Int) (c : Pixel) : Frame :=
  fillRegion fr
    (fun y x =>
      decide (x1 - 1 ≤ (x : Int)) && decide ((x : Int) ≤ x2 + 1) &&
      decide (y1 - 1 ≤ (y : Int)) && decide ((y : Int) ≤ y2 + 1) &&
      !(decide (x1 + 1 < (x : Int)) && decide ((x : Int) < x2 - 1) &&
        decide (y1 + 1 < (y : Int)) && decide ((y : Int) < y2 - 1)))
    c

/-- Model of `cv2.rectangle(frame, (x1, y1-lh-8), (x1+lw, y1), color, -1)`: filled
label background box. -/
def drawFilledRect (fr : Frame) (x1 y1 x2 y2 : Int) (c : Pixel) : Frame :=
  fillRegion fr
    (fun y x =>
      decide (x1 ≤ (x : Int)) && decide ((x : Int) ≤ x2) &&
      decide (y1 ≤ (y : Int)) && decide ((y : Int) ≤ y2))
    c

/-- Model of `cv2.getTextSize(label, FONT_HERSHEY_SIMPLEX, 0.8, 1)`: Hershey font
metrics are cv2-internal; modelled as a fixed per-character advance and a
fixed height.  Only the label box region depends on it, no claim does. -/
def textSize (label : String) : Nat × Nat :=
  (12 * label.length, 18)

/-- Model of `cv2.putText(frame, label, (x1, y1-4), ..., font_color, 1)`: glyph
rasterisation abstracted to a write of the font colour at the text anchor. -/
def drawText (fr : Frame) (x1 y1 : Int) (c : Pixel) : Frame :=
  fillRegion fr (fun y x => decide ((x : Int) = x1) && decide ((y : Int) = y1)) c

/-- The label string `f"<name> <conf*100:.0f>%"` (main.py:199); `:.0f` rounds to integer. -/
def detLabel (name : String) (conf : ℚ) : String :=
  name ++ " " ++ toString (round (conf * 100)) ++ "%"

/-- The mask branch (main.py:206–212): resize the mask grid to the frame's
dimensions (interpolation abstracted to nearest-neighbour sampling), then on
every pixel where the resized mask exceeds 0.5 blend
`0.65·current + 0.35·color` (numpy float blend and `astype(uint8)`
truncation modelled over ℚ with floor). -/
def maskAt (m : List (List ℚ)) (h w : Nat) (y x : Nat) : ℚ :=
  (m.getD (y * m.length / h) []).getD (x * (m.getD 0 []).length / w) 0

def blendChan (p c : Nat) : Nat :=
  ((65 * (p : ℚ) + 35 * (c : ℚ)) / 100).floor.toNat

def blendPixel (p c : Pixel) : Pixel :=
  (blendChan p.1 c.1, blendChan p.2.1 c.2.1, blendChan p.2.2 c.2.2)

def applyMask (fr : Frame) (m : List (List ℚ)) (c : Pixel) : Frame :=
  fr.enum.map fun yr => yr.2.enum.map fun xp =>
    if decide ((1 : ℚ) / 2 < maskAt m fr.length (yr.2.length) yr.1 xp.1) then
      blendPixel xp.2 c
    else xp.2

/-- White fallback colour for an out-of-range class (main.py:194). -/
def white : Pixel := (255, 255, 255)

/-- Model of `font_color = (0,0,0) if sum(color) > 500 else (255,255,255)` (main.py:203). -/
def fontColor (c : Pixel) : Pixel :=
  if 500 < c.1 + c.2.1 + c.2.2 then (0, 0, 0) else white

/-- The body of `_draw`'s per-detection loop (main.py:190–212). -/
def drawDet (names : List String) (colors : List Pixel) (fr : Frame) (d : Det) : Frame :=
  let x1 := d.bbox.1
  let y1 := d.bbox.2.1
  let x2 := d.bbox.2.2.1
  let y2 := d.bbox.2.2.2
  let color := if d.cls < colors.length then colors.getD d.cls white else white
  let name := if d.cls < names.length then names.getD d.cls "" else toString d.cls
  let label := detLabel name d.conf
  let fr1 := drawRect fr x1 y1 x2 y2 color
  let fr2 := drawFilledRect fr1 x1 (y1 - (textSize label).2 - 8) (x1 + (textSize label).1) y1 color
  let fr3 := drawText fr2 x1 (y1 - 4) (fontColor color)
  match d.mask with
  | none => fr3
  | some m => applyMask fr3 m color

/-- Model of `_draw(frame, detections, class_names, colors_bgr)` (main.py:189–214):
fold the per-detection drawing over the frame, accumulating (mask blending
is applied on the accumulating overlay, not re-derived from the original). -/
def draw (fr : Frame) (dets : List Det) (names : List String) (colors : List Pixel) : Frame :=
  dets.foldl (drawDet names colors) fr

/-- Model of `frame.copy()`: a fresh array with the same pixel values. -/
def copyFrame (fr : Frame) : Frame := fr

/-- The session's render step, main.py:365:
`annotated = _draw(frame.copy(), stable, class_names, class_colors_bgr)`.
`_draw` writes through the array it receives, but the session hands it a
fresh copy, so the caller's `frame` array is never written.  The pair
returned is (the caller's `frame` array after the call, the annotated
result); aliasing is resolved per Python semantics: `frame.copy()` is a
distinct buffer, hence the first component is the unchanged original. -/
def renderStep (fr : Frame) (dets : List Det) (names : List String) (colors : List Pixel) :
    Frame × Frame :=
  let buffer := copyFrame fr
  (fr, draw buffer dets names colors)

/-! ## Transport encoder (`_encode_frame`, main.py:217–222) -/

/-- Frame shape, `frame.shape[:2] = (h, w)`: height is the row count, width the length
of a row. -/
def frameHeight (fr : Frame) : Nat := fr.length

def frameWidth (fr : Frame) : Nat := (fr.getD 0 []).length

/-- Pixel access with numpy-style zero default outside the grid. -/
def pixelAt (fr : Frame) (y x : Nat) : Pixel :=
  (fr.getD y []).getD x (0, 0, 0)

/-- Model of `cv2.resize` to given width and height: interpolation abstracted to
nearest-neighbour sampling; the output dimensions are exact. -/
def resizeFrame (fr : Frame) (wNew hNew : Nat) : Frame :=
  (List.range hNew).map fun y =>
    (List.range wNew).map fun x =>
      pixelAt fr (y * frameHeight fr / hNew) (x * frameWidth fr / wNew)

/-- Model of `_encode_frame` (main.py:217–222): if the width exceeds 640, resize to
width 640 and height `int(640 * h / w)` (Python float division then `int`
truncation = `Nat` floor division here); then JPEG-compress at quality 60.
The call can raise: when the computed target height is 0 — that is, when
`640 * h < w` — `cv2.resize(frame, (640, 0))` rejects the empty
destination size (`dsize.empty()` with zero scale factors) with
`cv2.error`; `none` models that raise.  Otherwise JPEG bytes are
unspecifiable, so the model returns the image that is compressed; its
dimensions are the dimensions of the encoded frame. -/
def encodeFrame (fr : Frame) : Option Frame :=
  if 640 < frameWidth fr then
    if 640 * frameHeight fr / frameWidth fr = 0 then none
    else some (resizeFrame fr 640 (640 * frameHeight fr / frameWidth fr))
  else some fr

/-! ## Detection Provider client (`_call_model`, main.py:173–186)

The whole call (JPEG-encode, POST, `raise_for_status`, JSON decode) sits in
one `try`; any exception — transport error, non-2xx status, timeout,
malformed body — is caught and yields `[]`.  The outcome of the external
call is modelled as `Option (List Det)`: `some dets` for a successful call
whose body decoded to `dets`, `none` for any failure. -/

def callModel (resp : Option (List Det)) : List Det :=
  match resp with
  | some dets => dets
  | none => []

/-! ## Session orchestrator (`ws_video`, main.py:320–379) -/

/-- The environment's behaviour on one iteration of the streaming loop:
whether `cap.read()` succeeds and with which frame, the Detection
Provider outcome for that frame, and whether the cv2 render call, the
encode call, or the websocket send raises on this iteration. -/
structure FrameInput where
  readOk : Bool
  frame : Frame := []
  providerResp : Option (List Det) := none
  renderRaises : Bool := false
  encodeRaises : Bool := false
  sendRaises : Bool := false
deriving DecidableEq

/-- The environment of a whole session: whether `cap.isOpened()` after
`cv2.VideoCapture(source)`, and the per-iteration stimuli.  The stimulus
list ending models the client disconnecting / the task being cancelled,
which in the running code is the only way the `while True` loop stops
other than an exception. -/
structure SessionInput where
  opened : Bool
  frames : List FrameInput
deriving DecidableEq

/-- The message sent per frame (main.py:368–372), without the wall-clock
timestamp (real time is outside the model; no claim mentions it).  The
`frame` field carries the outcome of the `_encode_frame` call (see
`encodeFrame`): `some img` is the image whose JPEG bytes go on the wire;
`none` is the call raising `cv2.error`, in which case the real loop sends
nothing — that control effect is the `encodeRaises` stimulus, which for a
faithful stimulus sequence is `true` exactly when the iteration's encode
call raises, so a sent message always carries `some`. -/
structure StreamMessage where
  framePayload : Option Frame
  detections : List Det
deriving DecidableEq

/-- What one loop iteration did, observably. -/
inductive IterOutcome where
  /-- A failed `cap.read()`: the code seeks the source to its start
  (`cap.set(CAP_PROP_POS_FRAMES, 0)`) and sleeps (`asyncio.sleep(0.1)`,
  recorded in milliseconds), then continues (main.py:344–348). -/
  | readFail (seekedToStart : Bool) (backoffMs : Nat)
  /-- A message was sent for this frame and the loop continued. -/
  | sentFrame (msg : StreamMessage)
  /-- An exception escaped this iteration; the loop is over. -/
  | crashed
deriving DecidableEq

/-- The streaming loop (main.py:342–374).  Returns the iteration outcomes,
the histories when the loop stopped, and whether it stopped by exception.
Histories are updated (main.py:353–354) before rendering/encoding/sending,
so a crash in those steps still leaves the update in place.  The
`renderRaises`/`encodeRaises`/`sendRaises` stimuli model any exception out
of the cv2 draw calls, the encode call, or the websocket send; this
includes the deterministic `cv2.error` that `encodeFrame` reports as
`none` (a faithful stimulus has `encodeRaises = true` whenever
`encodeFrame` of the drawn frame is `none`). -/
def runLoop (n : Nat) (names : List String) (colors : List Pixel)
    (hist : List (List Nat)) : List FrameInput → List IterOutcome × List (List Nat) × Bool
  | [] => ([], hist, false)
  | f :: rest =>
    if f.readOk then
      let dets := callModel f.providerResp
      let hist' := updateHistory n dets hist
      let stable := stabilize n hist' dets
      if f.renderRaises || f.encodeRaises || f.sendRaises then
        ([IterOutcome.crashed], hist', true)
      else
        let rendered := renderStep f.frame stable names colors
        let msg : StreamMessage := ⟨encodeFrame rendered.2, stable⟩
        let r := runLoop n names colors hist' rest
        (IterOutcome.sentFrame msg :: r.1, r.2)
    else
      let r := runLoop n names colors hist rest
      (IterOutcome.readFail true 100 :: r.1, r.2)

/-- Observable result of a whole session. -/
structure SessionResult where
  /-- Was the `{"error": "Cannot open video source"}` message sent? -/
  errorMsgSent : Bool
  /-- Did the server call `websocket.close()` itself (failed-open path only)? -/
  closedByServer : Bool
  outcomes : List IterOutcome
  finalHistory : List (List Nat)
  /-- How many times `cap.release()` ran. -/
  releaseCount : Nat
deriving DecidableEq

/-- Model of `ws_video` (main.py:320–379).  If the source does not open: send one
error message, close the websocket, return — with no `cap.release()` on
this path.  Otherwise run the loop inside `try/except/finally`; the
`finally` releases the capture exactly once whether the loop ended by
exception, by disconnect or by cancellation. -/
def runSession (n : Nat) (names : List String) (colors : List Pixel)
    (inp : SessionInput) : SessionResult :=
  if inp.opened then
    let r := runLoop n names colors (initHist n) inp.frames
    { errorMsgSent := false
      closedByServer := false
      outcomes := r.1
      finalHistory := r.2.1
      releaseCount := 1 }
  else
    { errorMsgSent := true
      closedByServer := true
      outcomes := []
      finalHistory := initHist n
      releaseCount := 0 }

/-- The history state after folding a sequence of raw detection lists
through the per-frame update; `runFilter`'s history component computes
exactly this (proved below). -/
def foldHist (n : Nat) (hist : List (List Nat)) (frames : List (List Det)) : List (List Nat) :=
  frames.foldl (fun h dets => updateHistory n dets h) hist

/-! ## Concrete instances used by witnesses and counterexamples -/

/-- A detection of the first configured class with confidence 1. -/
def det0 : Det := ⟨0, 1, (0, 0, 0, 0), none⟩

/-- A detection whose class index 5 is out of range for one configured class. -/
def det5 : Det := ⟨5, 1, (0, 0, 0, 0), none⟩

/-- Three frames, the class-0 detection present in each. -/
def threeFrames : List (List Det) := [[det0], [det0], [det0]]

/-- A one-pixel frame. -/
def oneByOne : Frame := [[(0, 0, 0)]]

/-- An iteration stimulus where everything succeeds and the provider sees nothing. -/
def cleanInput : FrameInput := ⟨true, oneByOne, some [], false, false, false⟩

/-- An iteration stimulus whose render call raises. -/
def renderFailInput : FrameInput := ⟨true, oneByOne, some [], true, false, false⟩

/-- An iteration stimulus whose encode call raises. -/
def encodeFailInput : FrameInput := ⟨true, oneByOne, some [], false, true, false⟩

/-- An iteration stimulus whose frame read fails. -/
def readFailInput : FrameInput := ⟨false, [], none, false, false, false⟩

/-- An iteration stimulus whose Detection Provider call fails. -/
def providerFailInput : FrameInput := ⟨true, oneByOne, none, false, false, false⟩

/-- A 642×2 frame (wider than 640). -/
def wideFrame : Frame := List.replicate 2 (List.replicate 642 (0, 0, 0))

/-- A 641×1 frame: wider than 640 with `640 * h < w`, so the encoder's
computed target height is `640 * 1 / 641 = 0`. -/
def thinFrame : Frame := [List.replicate 641 (0, 0, 0)]

/-! ## Lemmas: the rolling window -/

theorem lastTen_of_le {l : List Nat} (h : l.length ≤ 10) : lastTen l = l := by
  have h0 : l.length - 10 = 0 := by omega
  simp [lastTen, h0]

theorem length_lastTen (l : List Nat) : (lastTen l).length = min l.length 10 := by
  simp [lastTen]
  omega

theorem pushHist_eq_lastTen (h : List Nat) (x : Nat) : pushHist h x = lastTen (h ++ [x]) := rfl

theorem lastTen_lastTen_append (l : List Nat) (x : Nat) :
    lastTen (lastTen l ++ [x]) = lastTen (l ++ [x]) := by
  rcases le_or_lt l.length 10 with hl | hl
  · rw [lastTen_of_le hl]
  · have hA : lastTen l ++ [x] = (l ++ [x]).drop (l.length - 10) := by
      unfold lastTen
      rw [List.drop_append_of_le_length (by omega : l.length - 10 ≤ l.length)]
    rw [hA]
    unfold lastTen
    rw [List.drop_drop]
    congr 1
    simp only [List.length_drop, List.length_append, List.length_cons, List.length_nil]
    omega

theorem length_pushHist (h : List Nat) (x : Nat) :
    (pushHist h x).length = min (h.length + 1) 10 := by
  rw [pushHist_eq_lastTen, length_lastTen]
  simp

/-! ## Lemmas: histories through the filter -/

theorem getD_updateHistory (n : Nat) (dets : List Det) (hist : List (List Nat))
    (c : Nat) (hc : c < n) :
    (updateHistory n dets hist).getD c [] = pushHist (hist.getD c []) (presenceFlag c dets) := by
  unfold updateHistory presenceFlag
  rw [List.getD_eq_getElem?_getD, List.getElem?_map, List.getElem?_range hc]
  rfl

theorem runFilter_fst (n : Nat) (frames : List (List Det)) :
    ∀ hist, (runFilter n hist frames).1 = foldHist n hist frames := by
  induction frames with
  | nil => intro hist; rfl
  | cons f fs ih =>
    intro hist
    simp only [runFilter, frameStep, foldHist, List.foldl_cons]
    exact ih (updateHistory n f hist)

theorem foldHist_getD (n c : Nat) (hc : c < n) (frames : List (List Det)) :
    ∀ (hist : List (List Nat)) (acc : List Nat), hist.getD c [] = lastTen acc →
      (foldHist n hist frames).getD c [] = lastTen (acc ++ frames.map (presenceFlag c)) := by
  induction frames with
  | nil => intro hist acc h; simpa [foldHist] using h
  | cons f fs ih =>
    intro hist acc h
    have h1 : (updateHistory n f hist).getD c [] = lastTen (acc ++ [presenceFlag c f]) := by
      rw [getD_updateHistory n f hist c hc, h, pushHist_eq_lastTen,
        lastTen_lastTen_append]
    have h2 := ih (updateHistory n f hist) (acc ++ [presenceFlag c f]) h1
    simpa [foldHist, List.append_assoc] using h2

theorem initHist_getD (n c : Nat) : (initHist n).getD c [] = [] := by
  unfold initHist
  rw [List.getD_eq_getElem?_getD]
  rcases lt_or_le c n with h | h
  · simp [List.getElem?_replicate, h]
  · have hle : (List.replicate n ([] : List Nat)).length ≤ c := by simpa using h
    simp [List.getElem?_eq_none hle]

theorem hist_spec (n c : Nat) (hc : c < n) (frames : List (List Det)) :
    (foldHist n (initHist n) frames).getD c [] = specHistory c frames := by
  have h0 : (initHist n).getD c [] = lastTen [] := by rw [initHist_getD]; rfl
  simpa [specHistory] using foldHist_getD n c hc frames (initHist n) [] h0

theorem runFilter_snd_length (n : Nat) (frames : List (List Det)) :
    ∀ hist, (runFilter n hist frames).2.length = frames.length := by
  induction frames with
  | nil => intro hist; rfl
  | cons f fs ih =>
    intro hist
    simp only [runFilter, frameStep, List.length_cons]
    rw [ih]

theorem runFilter_snd_getD (n : Nat) (frames : List (List Det)) :
    ∀ (hist : List (List Nat)) (i : Nat), i < frames.length →
      (runFilter n hist frames).2.getD i []
        = stabilize n (foldHist n hist (frames.take (i + 1))) (frames.getD i []) := by
  induction frames with
  | nil => intro hist i h; exact absurd h (by simp)
  | cons f fs ih =>
    intro hist i h
    match i with
    | 0 =>
      simp [runFilter, frameStep, foldHist]
    | i + 1 =>
      have h' : i < fs.length := by simpa using h
      have := ih (updateHistory n f hist) i h'
      simp only [runFilter, frameStep, List.getD_cons_succ, List.take_succ_cons, foldHist,
        List.foldl_cons] at this ⊢
      exact this

theorem mem_stabilize {n : Nat} {hist : List (List Nat)} {dets : List Det} {d : Det}
    (hd : d ∈ stabilize n hist dets) :
    d ∈ dets ∧ d.cls < n ∧ presenceOK (hist.getD d.cls []) = true := by
  unfold stabilize at hd
  have h1 := List.mem_of_mem_take hd
  have h2 := (List.perm_insertionSort confGe _).subset h1
  have h3 := List.mem_filter.mp h2
  refine ⟨h3.1, ?_, ?_⟩
  · have := (Bool.and_eq_true _ _).mp h3.2 |>.1
    exact of_decide_eq_true this
  · exact (Bool.and_eq_true _ _).mp h3.2 |>.2

theorem presenceOK_frac {h : List Nat} (hp : presenceOK h = true) :
    (4 : ℚ) / 5 ≤ (h.sum : ℚ) / (h.length : ℚ) := by
  unfold presenceOK at hp
  have hpos : 0 < h.length := of_decide_eq_true ((Bool.and_eq_true _ _).mp hp).1
  have hx : 4 * h.length ≤ 5 * h.sum := of_decide_eq_true ((Bool.and_eq_true _ _).mp hp).2
  rw [div_le_div_iff₀ (by norm_num) (by exact_mod_cast hpos)]
  have hq : (4 : ℚ) * h.length ≤ 5 * h.sum := by exact_mod_cast hx
  linarith

theorem frac_presenceOK {h : List Nat} (hpos : 0 < h.length)
    (hx : (4 : ℚ) / 5 ≤ (h.sum : ℚ) / (h.length : ℚ)) : presenceOK h = true := by
  unfold presenceOK
  rw [div_le_div_iff₀ (by norm_num) (by exact_mod_cast hpos)] at hx
  have hq : (4 : ℚ) * h.length ≤ 5 * h.sum := by linarith
  have hn : 4 * h.length ≤ 5 * h.sum := by exact_mod_cast hq
  simp [hpos, hn]

/-! ## Lemmas: stability of the confidence sort

The entries of any fixed confidence value come out of the sort in exactly
the order they went in. -/

theorem filter_confEq_orderedInsert (q : ℚ) (a : Det) (l : List Det) :
    (l.orderedInsert confGe a).filter (fun d => decide (d.conf = q))
      = ((a :: l).filter (fun d => decide (d.conf = q))) := by
  induction l with
  | nil => rfl
  | cons b t ih =>
    simp only [List.orderedInsert]
    by_cases hab : confGe a b
    · rw [if_pos hab]
    · rw [if_neg hab]
      by_cases hpa : a.conf = q
      · have hlt : a.conf < b.conf := lt_of_not_le hab
        have hpb : ¬(b.conf = q) := fun hb => absurd (le_of_eq (hb.trans hpa.symm)) hab
        simp [List.filter_cons, hpa, hpb] at ih ⊢
        exact ih
      · simp [List.filter_cons, hpa] at ih ⊢
        rw [ih]

theorem filter_confEq_insertionSort (q : ℚ) (l : List Det) :
    (l.insertionSort confGe).filter (fun d => decide (d.conf = q))
      = l.filter (fun d => decide (d.conf = q)) := by
  induction l with
  | nil => rfl
  | cons a t ih =>
    simp only [List.insertionSort]
    rw [filter_confEq_orderedInsert]
    simp only [List.filter_cons, ih]

/-! ## Lemmas: out-of-range classes are inert -/

theorem mem_detectedClasses_filter (n : Nat) (dets : List Det) (c : Nat) (hc : c < n) :
    c ∈ detectedClasses (dets.filter fun d => decide (d.cls < n)) ↔ c ∈ detectedClasses dets := by
  simp only [detectedClasses, List.mem_map, List.mem_filter]
  constructor
  · rintro ⟨d, ⟨hd, _⟩, rfl⟩
    exact ⟨d, hd, rfl⟩
  · rintro ⟨d, hd, rfl⟩
    exact ⟨d, ⟨hd, decide_eq_true hc⟩, rfl⟩

theorem detectedClasses_filter_inRange (n : Nat) (dets : List Det) (c : Nat) (hc : c < n) :
    ((detectedClasses (dets.filter fun d => decide (d.cls < n))).contains c)
      = ((detectedClasses dets).contains c) := by
  simp only [List.contains, List.elem_eq_mem]
  exact decide_eq_decide.mpr (mem_detectedClasses_filter n dets c hc)

theorem updateHistory_filter_inRange (n : Nat) (dets : List Det) (hist : List (List Nat)) :
    updateHistory n (dets.filter fun d => decide (d.cls < n)) hist
      = updateHistory n dets hist := by
  unfold updateHistory
  apply List.map_congr_left
  intro cls hcls
  rw [detectedClasses_filter_inRange n dets cls (List.mem_range.mp hcls)]

theorem stabilize_filter_inRange (n : Nat) (hist : List (List Nat)) (dets : List Det) :
    stabilize n hist (dets.filter fun d => decide (d.cls < n)) = stabilize n hist dets := by
  unfold stabilize
  rw [List.filter_filter]
  congr 2
  apply List.filter_congr
  intro d _
  rcases hA : decide (d.cls < n) with _ | _ <;> simp [hA]

theorem runFilter_filter_inRange (n : Nat) (frames : List (List Det)) :
    ∀ hist, runFilter n hist (frames.map fun dets => dets.filter fun d => decide (d.cls < n))
      = runFilter n hist frames := by
  induction frames with
  | nil => intro hist; rfl
  | cons f fs ih =>
    intro hist
    simp only [List.map_cons, runFilter, frameStep, updateHistory_filter_inRange,
      stabilize_filter_inRange]
    rw [ih]

/-! ## Claims about the stability filter -/

/-- C1: for every session and sequence of per-frame raw detection lists, a
detection appears in the stabilized output of frame `i` only if its class's
presence fraction — the sum of the class's rolling history divided by the
history's actual current length — is at least 0.8 at that frame; the
history at frame `i` is exactly the presence flags of the last ≤10 frames
ending at `i`, so with fewer than 10 frames observed the smaller actual
count `min (i+1) 10` is the denominator. -/
theorem stabilized_output_requires_presence (n : Nat) (frames : List (List Det)) (i : Nat)
    (d : Det) (hi : i < frames.length)
    (hd : d ∈ (runFilter n (initHist n) frames).2.getD i []) :
    (4 : ℚ) / 5 ≤ specFrac d.cls (frames.take (i + 1)) ∧
      (specHistory d.cls (frames.take (i + 1))).length = min (i + 1) 10 := by
  rw [runFilter_snd_getD n frames (initHist n) i hi] at hd
  obtain ⟨_, hcls, hok⟩ := mem_stabilize hd
  rw [hist_spec n d.cls hcls (frames.take (i + 1))] at hok
  refine ⟨presenceOK_frac hok, ?_⟩
  simp only [specHistory]
  rw [length_lastTen, List.length_map, List.length_take,
    Nat.min_eq_left (by omega : i + 1 ≤ frames.length)]

/-- Witness for C1: three frames with the class-0 detection present in all
three; it is in frame 2's stabilized output and its presence fraction there
is 3/3 = 1 ≥ 0.8, computed with the actual history length 3 = min 3 10. -/
theorem stabilized_output_requires_presence_witness :
    (4 : ℚ) / 5 ≤ specFrac det0.cls (threeFrames.take (2 + 1)) ∧
      (specHistory det0.cls (threeFrames.take (2 + 1))).length = min (2 + 1) 10 :=
  stabilized_output_requires_presence 1 threeFrames 2 det0 (by decide) (by decide)

/-- C2: for every frame, the stabilized detection list is sorted by
confidence in descending order (`confGe` pairwise), equal-confidence
entries keep their relative order from the raw input list (for every
confidence value `q`, the output's `q`-entries are an order-preserving
subselection of the raw list's `q`-entries), and the list is truncated to
at most `n = len(class_names)` entries. -/
theorem stabilized_sorted_stable_capped (n : Nat) (hist : List (List Nat)) (dets : List Det) :
    (stabilize n hist dets).Pairwise confGe ∧
    (∀ q : ℚ, List.Sublist
        ((stabilize n hist dets).filter (fun d => decide (d.conf = q)))
        (dets.filter (fun d => decide (d.conf = q)))) ∧
    (stabilize n hist dets).length ≤ n := by
  unfold stabilize
  refine ⟨?_, ?_, ?_⟩
  · exact List.Pairwise.sublist (List.take_sublist _ _) (List.sorted_insertionSort confGe _)
  · intro q
    have h1 := (List.take_sublist n
        ((dets.filter fun d => decide (d.cls < n) && presenceOK (hist.getD d.cls [])).insertionSort
          confGe)).filter (fun d => decide (d.conf = q))
    rw [filter_confEq_insertionSort] at h1
    exact h1.trans ((List.filter_sublist dets).filter _)
  · rw [List.length_take]
    exact min_le_left _ _

/-- C3: a raw detection with class index `≥ n` never appears in any frame's
stabilized output, and dropping all such detections from every frame
changes nothing — neither any class's history nor any output — so only the
configured class indices `0..n-1` ever receive a history entry. -/
theorem oor_detections_inert (n : Nat) (hist : List (List Nat)) (frames : List (List Det)) :
    runFilter n hist (frames.map fun dets => dets.filter fun d => decide (d.cls < n))
        = runFilter n hist frames ∧
    ∀ (i : Nat) (d : Det), d ∈ (runFilter n hist frames).2.getD i [] → d.cls < n := by
  refine ⟨runFilter_filter_inRange n frames hist, ?_⟩
  intro i d hd
  by_cases hi : i < frames.length
  · rw [runFilter_snd_getD n frames hist i hi] at hd
    exact (mem_stabilize hd).2.1
  · have hlen : (runFilter n hist frames).2.length ≤ i := by
      rw [runFilter_snd_length]
      omega
    rw [List.getD_eq_getElem?_getD, List.getElem?_eq_none hlen] at hd
    simp at hd

/-- Witness for C3: with one configured class, a frame containing an
out-of-range class-5 detection next to a class-0 one runs identically with
the class-5 detection removed, and the in-range detection found in the
output indeed has class `< 1`. -/
theorem oor_detections_inert_witness :
    (runFilter 1 (initHist 1)
        ([[det5, det0]].map fun dets => dets.filter fun d => decide (d.cls < 1))
      = runFilter 1 (initHist 1) [[det5, det0]]) ∧ det0.cls < 1 :=
  ⟨(oor_detections_inert 1 (initHist 1) [[det5, det0]]).1,
   (oor_detections_inert 1 (initHist 1) [[det5, det0]]).2 0 det0 (by decide)⟩

/-- C10: at every point in a session, all per-class histories have the same
length, namely `min k 10` where `k` is the number of successfully read
frames processed so far (the elements of `frames`; read failures never
touch the histories — see the C7 theorem); hence the presence-fraction
denominator is identical for every configured class on any given frame. -/
theorem histories_uniform (n : Nat) (frames : List (List Det)) (c : Nat) (hc : c < n) :
    ((runFilter n (initHist n) frames).1.getD c []).length = min frames.length 10 ∧
    ∀ c' : Nat, c' < n →
      ((runFilter n (initHist n) frames).1.getD c' []).length
        = ((runFilter n (initHist n) frames).1.getD c []).length := by
  have key : ∀ c0, c0 < n →
      ((runFilter n (initHist n) frames).1.getD c0 []).length = min frames.length 10 := by
    intro c0 hc0
    rw [runFilter_fst, hist_spec n c0 hc0]
    simp only [specHistory]
    rw [length_lastTen, List.length_map]
  exact ⟨key c hc, fun c' hc' => (key c' hc').trans (key c hc).symm⟩

/-- Witness for C10: with two configured classes and three processed
frames, class 0's history length is `min 3 10 = 3`. -/
theorem histories_uniform_witness :
    ((runFilter 2 (initHist 2) threeFrames).1.getD 0 []).length = min threeFrames.length 10 :=
  (histories_uniform 2 threeFrames 0 (by decide)).1

/-! ## Claims about the session orchestrator -/

/-- C4 counterexample: the claim says a render/encode failure makes the
session skip sending that frame and continue with the next frame.  In the
code the `try` (main.py:341) wraps the whole `while` loop, so the first
such exception ends the session: on the concrete two-stimulus input
(a render-failing frame followed by a clean frame) the session produces
the single outcome `crashed` — nothing is sent, and the second frame is
never processed, where the claim predicts a second, sent outcome. -/
theorem render_failure_counterexample :
    (runSession 1 ["c1"] [(0, 0, 0)] ⟨true, [renderFailInput, cleanInput]⟩).outcomes
      = [IterOutcome.crashed] := rfl

/-- C4 (amended): if rendering or encoding (or the send) of one frame
raises, the session does not continue: the exception escapes the loop,
that frame is not sent, no later frame is processed, the histories keep
the failing frame's update, and — via the `finally` — the frame source is
released once. -/
theorem render_failure_terminates (n : Nat) (nm : List String) (cl : List Pixel)
    (hist : List (List Nat)) (f : FrameInput) (rest : List FrameInput)
    (hr : f.readOk = true) (hfail : f.renderRaises = true ∨ f.encodeRaises = true) :
    runLoop n nm cl hist (f :: rest)
      = ([IterOutcome.crashed], updateHistory n (callModel f.providerResp) hist, true) ∧
    (runSession n nm cl ⟨true, f :: rest⟩).releaseCount = 1 := by
  constructor
  · rcases hfail with h | h <;> simp [runLoop, hr, h]
  · simp [runSession]

/-- Witness for the amended C4: a single encode-failing frame crashes the
loop at once and the session still releases the source. -/
theorem render_failure_terminates_witness :
    runLoop 1 ["c1"] [(0, 0, 0)] (initHist 1) [encodeFailInput]
      = ([IterOutcome.crashed],
         updateHistory 1 (callModel encodeFailInput.providerResp) (initHist 1), true) ∧
    (runSession 1 ["c1"] [(0, 0, 0)] ⟨true, [encodeFailInput]⟩).releaseCount = 1 :=
  render_failure_terminates 1 ["c1"] [(0, 0, 0)] (initHist 1) encodeFailInput []
    rfl (Or.inr rfl)

/-- C5 counterexample: the claim says the frame source handle is released
exactly once on every exit path, "also the path where the frame source
fails to open".  On that path (main.py:336–339) the code sends the error
message and closes the websocket but returns without `cap.release()`:
the release count is 0, not 1. -/
theorem open_failure_counterexample :
    (runSession 1 ["c1"] [(0, 0, 0)] ⟨false, []⟩).releaseCount = 0 ∧
    (runSession 1 ["c1"] [(0, 0, 0)] ⟨false, []⟩).errorMsgSent = true ∧
    (runSession 1 ["c1"] [(0, 0, 0)] ⟨false, []⟩).closedByServer = true :=
  ⟨rfl, rfl, rfl⟩

/-- C5 (amended): on every exit path of a session whose frame source did
open — normal end by client disconnect/cancellation, or any exception
inside the loop — the source handle is released exactly once, by the
`finally` block (main.py:378–379); the failed-open path instead sends one
error message and closes the websocket without releasing. -/
theorem release_exactly_once_when_opened (n : Nat) (nm : List String) (cl : List Pixel)
    (inp : SessionInput) (h : inp.opened = true) :
    (runSession n nm cl inp).releaseCount = 1 := by
  simp [runSession, h]

/-- Witness for the amended C5: an opened session over a clean frame and a
failed read releases exactly once. -/
theorem release_exactly_once_when_opened_witness :
    (runSession 1 ["c1"] [(0, 0, 0)] ⟨true, [cleanInput, readFailInput]⟩).releaseCount = 1 :=
  release_exactly_once_when_opened 1 ["c1"] [(0, 0, 0)] ⟨true, [cleanInput, readFailInput]⟩ rfl

/-- C6: whenever the Detection Provider call fails for any reason
(`_call_model` catches every exception, main.py:184–186), the call yields
the empty detection list; in that iteration every configured class's
history receives a `0` entry, and the session still emits a message for
the frame and continues, rather than terminating. -/
theorem provider_failure_degrades (n : Nat) (nm : List String) (cl : List Pixel)
    (hist : List (List Nat)) (f : FrameInput) (rest : List FrameInput)
    (h1 : f.readOk = true) (h2 : f.providerResp = none) (h3 : f.renderRaises = false)
    (h4 : f.encodeRaises = false) (h5 : f.sendRaises = false) :
    callModel f.providerResp = [] ∧
    (∀ c : Nat, c < n →
      (updateHistory n (callModel f.providerResp) hist).getD c []
        = pushHist (hist.getD c []) 0) ∧
    runLoop n nm cl hist (f :: rest)
      = (IterOutcome.sentFrame
            ⟨encodeFrame (renderStep f.frame (stabilize n (updateHistory n [] hist) []) nm cl).2,
              stabilize n (updateHistory n [] hist) []⟩
          :: (runLoop n nm cl (updateHistory n [] hist) rest).1,
        (runLoop n nm cl (updateHistory n [] hist) rest).2) := by
  refine ⟨by rw [h2]; rfl, ?_, ?_⟩
  · intro c hc
    rw [h2, getD_updateHistory n (callModel none) hist c hc]
    rfl
  · simp [runLoop, h1, h2, h3, h4, h5, callModel, renderStep]

/-- Witness for C6: one provider-failing iteration pushes `0` onto the
only class's history and still sends a frame message. -/
theorem provider_failure_degrades_witness :
    callModel providerFailInput.providerResp = [] ∧
    (updateHistory 1 (callModel providerFailInput.providerResp) (initHist 1)).getD 0 []
      = pushHist ((initHist 1).getD 0 []) 0 ∧
    runLoop 1 ["c1"] [(0, 0, 0)] (initHist 1) [providerFailInput]
      = (IterOutcome.sentFrame
            ⟨encodeFrame (renderStep providerFailInput.frame
                (stabilize 1 (updateHistory 1 [] (initHist 1)) []) ["c1"] [(0, 0, 0)]).2,
              stabilize 1 (updateHistory 1 [] (initHist 1)) []⟩
          :: (runLoop 1 ["c1"] [(0, 0, 0)] (updateHistory 1 [] (initHist 1)) []).1,
        (runLoop 1 ["c1"] [(0, 0, 0)] (updateHistory 1 [] (initHist 1)) []).2) :=
  ⟨(provider_failure_degrades 1 ["c1"] [(0, 0, 0)] (initHist 1) providerFailInput []
      rfl rfl rfl rfl rfl).1,
   (provider_failure_degrades 1 ["c1"] [(0, 0, 0)] (initHist 1) providerFailInput []
      rfl rfl rfl rfl rfl).2.1 0 (by decide),
   (provider_failure_degrades 1 ["c1"] [(0, 0, 0)] (initHist 1) providerFailInput []
      rfl rfl rfl rfl rfl).2.2⟩

/-- C7: on a failed frame read the session records a seek-to-start and a
100 ms backoff and retries: the iteration leaves every history untouched
(the same `hist` is passed on), sends nothing, and does not close the
connection — the loop continues with the remaining stimuli. -/
theorem read_failure_retries (n : Nat) (nm : List String) (cl : List Pixel)
    (hist : List (List Nat)) (f : FrameInput) (rest : List FrameInput)
    (h : f.readOk = false) :
    runLoop n nm cl hist (f :: rest)
      = (IterOutcome.readFail true 100 :: (runLoop n nm cl hist rest).1,
         (runLoop n nm cl hist rest).2) := by
  simp [runLoop, h]

/-- Witness for C7: a single failed read yields exactly the seek-and-wait
outcome with unchanged history. -/
theorem read_failure_retries_witness :
    runLoop 1 ["c1"] [(0, 0, 0)] (initHist 1) [readFailInput]
      = (IterOutcome.readFail true 100 :: (runLoop 1 ["c1"] [(0, 0, 0)] (initHist 1) []).1,
         (runLoop 1 ["c1"] [(0, 0, 0)] (initHist 1) []).2) :=
  read_failure_retries 1 ["c1"] [(0, 0, 0)] (initHist 1) readFailInput [] rfl

/-! ## Claims about encoder and renderer -/

theorem frameHeight_resizeFrame (fr : Frame) (wNew hNew : Nat) :
    frameHeight (resizeFrame fr wNew hNew) = hNew := by
  simp [frameHeight, resizeFrame]

theorem frameWidth_resizeFrame (fr : Frame) (wNew hNew : Nat) (hh : 0 < hNew) :
    frameWidth (resizeFrame fr wNew hNew) = wNew := by
  unfold frameWidth resizeFrame
  rw [List.getD_eq_getElem?_getD, List.getElem?_map, List.getElem?_range hh]
  simp

set_option maxRecDepth 4000 in
/-- C8 counterexample: the claim promises that every frame of width
`w > 640` is downscaled to width exactly 640.  On the concrete 641×1
frame the computed target height is `int(640 * 1 / 641) = 0` and
`cv2.resize(frame, (640, 0))` raises `cv2.error` instead of producing any
frame — `encodeFrame` yields `none`, not a width-640 image. -/
theorem encode_zero_height_counterexample :
    640 < frameWidth thinFrame ∧ encodeFrame thinFrame = none :=
  ⟨by decide, by decide⟩

/-- C8 (amended): the transport encoder never produces a frame of width
greater than 640.  A frame of width ≤ 640 is passed through unchanged.  A
frame of width `w > 640` with `w ≤ 640*h` is downscaled to width exactly
640 with height `640*h/w` rounded down to an integer, preserving the
aspect within integer rounding (the height is off by less than one
source-width from the exact value).  A frame of width `w > 640` with
`640*h < w` makes the computed target height 0 and the resize raises
`cv2.error`, so no frame is produced for it at all. -/
theorem encode_width_bounded (fr : Frame) :
    (∀ g : Frame, encodeFrame fr = some g → frameWidth g ≤ 640) ∧
    (frameWidth fr ≤ 640 → encodeFrame fr = some fr) ∧
    (640 < frameWidth fr → frameWidth fr ≤ 640 * frameHeight fr →
      encodeFrame fr = some (resizeFrame fr 640 (640 * frameHeight fr / frameWidth fr)) ∧
      frameWidth (resizeFrame fr 640 (640 * frameHeight fr / frameWidth fr)) = 640 ∧
      frameHeight (resizeFrame fr 640 (640 * frameHeight fr / frameWidth fr))
        = 640 * frameHeight fr / frameWidth fr ∧
      (640 * frameHeight fr / frameWidth fr) * frameWidth fr ≤ 640 * frameHeight fr ∧
      640 * frameHeight fr < (640 * frameHeight fr / frameWidth fr + 1) * frameWidth fr) ∧
    (640 < frameWidth fr → 640 * frameHeight fr < frameWidth fr →
      encodeFrame fr = none) := by
  refine ⟨?_, ?_, ?_, ?_⟩
  · intro g hg
    by_cases hw : 640 < frameWidth fr
    · by_cases hz : 640 * frameHeight fr / frameWidth fr = 0
      · simp [encodeFrame, hw, hz] at hg
      · have hpos : 0 < 640 * frameHeight fr / frameWidth fr := Nat.pos_of_ne_zero hz
        have hg' : resizeFrame fr 640 (640 * frameHeight fr / frameWidth fr) = g := by
          simpa [encodeFrame, hw, hz] using hg
        rw [← hg', frameWidth_resizeFrame _ _ _ hpos]
    · have hg' : fr = g := by simpa [encodeFrame, hw] using hg
      rw [← hg']
      omega
  · intro hle
    simp [encodeFrame, show ¬640 < frameWidth fr by omega]
  · intro hw hsane
    have hpos : 0 < 640 * frameHeight fr / frameWidth fr :=
      (Nat.one_le_div_iff (by omega)).mpr hsane
    have hdm := Nat.div_add_mod (640 * frameHeight fr) (frameWidth fr)
    have hmod : 640 * frameHeight fr % frameWidth fr < frameWidth fr :=
      Nat.mod_lt _ (by omega)
    refine ⟨by simp [encodeFrame, hw, Nat.pos_iff_ne_zero.mp hpos],
            frameWidth_resizeFrame _ _ _ hpos, frameHeight_resizeFrame _ _ _,
            Nat.div_mul_le_self _ _, ?_⟩
    have h1 : (640 * frameHeight fr / frameWidth fr + 1) * frameWidth fr
        = frameWidth fr * (640 * frameHeight fr / frameWidth fr) + frameWidth fr := by ring
    rw [h1]
    omega
  · intro hw hthin
    have hz : 640 * frameHeight fr / frameWidth fr = 0 := Nat.div_eq_of_lt hthin
    simp [encodeFrame, hw, hz]

set_option maxRecDepth 4000 in
/-- Witness for the amended C8: the 642×2 frame is downscaled to a
width-640 image with the aspect bounds, and the 641×1 frame makes the
encode call raise (`none`). -/
theorem encode_width_bounded_witness :
    (encodeFrame wideFrame
        = some (resizeFrame wideFrame 640 (640 * frameHeight wideFrame / frameWidth wideFrame)) ∧
      frameWidth (resizeFrame wideFrame 640 (640 * frameHeight wideFrame / frameWidth wideFrame))
        = 640 ∧
      frameHeight (resizeFrame wideFrame 640 (640 * frameHeight wideFrame / frameWidth wideFrame))
        = 640 * frameHeight wideFrame / frameWidth wideFrame ∧
      (640 * frameHeight wideFrame / frameWidth wideFrame) * frameWidth wideFrame
        ≤ 640 * frameHeight wideFrame ∧
      640 * frameHeight wideFrame
        < (640 * frameHeight wideFrame / frameWidth wideFrame + 1) * frameWidth wideFrame) ∧
    encodeFrame thinFrame = none :=
  ⟨(encode_width_bounded wideFrame).2.2.1 (by decide) (by decide),
   (encode_width_bounded thinFrame).2.2.2 (by decide) (by decide)⟩

/-- C9: the session's render step (main.py:365) hands `_draw` a fresh copy
of the frame, so the returned image is an annotated copy and the caller's
original frame is never mutated: after rendering, the original array — the
first component under the aliasing model — is the unchanged frame, every
pixel reading the same as before. -/
theorem render_preserves_original (fr : Frame) (dets : List Det) (nm : List String)
    (cl : List Pixel) :
    (renderStep fr dets nm cl).1 = fr ∧
    (renderStep fr dets nm cl).2 = draw (copyFrame fr) dets nm cl ∧
    ∀ y x : Nat, pixelAt (renderStep fr dets nm cl).1 y x = pixelAt fr y x :=
  ⟨rfl, rfl, fun _ _ => rfl⟩

end ChickEye
